import Mathlib

/-!
Verification of the inventory advisory backend (`src/server.js`) against its
natural-language specification.

The JavaScript source is shallowly embedded: JS numbers are modelled as `ℚ`
(the claims under study involve no float-rounding corner cases), JS strings as
`List Char` of Unicode scalars, a missing field or a `NaN`-producing
`Number(...)` coercion as `none`, and the two effectful collaborators (the
spreadsheet row store and the generative-text service) as explicit inputs in
an environment record.  `res.json({...})` payloads are records in which a
field that some code path omits is an `Option`.
-/

/-- JS `Number(raw) || default` (lines 78-83, 145-149, 209-221 of
`src/server.js`): `none` models a missing field or a non-numeric string
(`Number` gives `NaN`, which is falsy), and a parsed `0` is falsy too, so both
fall back to the default. -/
def jsOr (v : Option ℚ) (d : ℚ) : ℚ :=
  match v with
  | none => d
  | some x => if x = 0 then d else x

/-- JS `raw || default` on a string field (`weight`, `expiry`): `undefined`
and the empty string are falsy. -/
def jsOrStr (v : Option String) (d : String) : String :=
  match v with
  | none => d
  | some s => if s = "" then d else s

/-- JS `Math.round`: rounds half toward positive infinity,
`Math.round(x) = ⌊x + 1/2⌋`. -/
def jsRound (q : ℚ) : ℤ := ⌊q + 1/2⌋

/-- A raw spreadsheet row as the route handlers read it: each numeric field
already holds the result of JS `Number(...)` (`none` = missing field or
non-numeric text), string fields hold `r.get(...)` (`none` = missing). -/
structure RawRow where
  rowIndex : Nat
  name : Option String
  price : Option ℚ
  weight : Option String
  expiry : Option String
  remaining : Option ℚ
  averageDays : Option ℚ
  shelfLife : Option ℚ

/-- The item shape `/api/items` returns (lines 75-84 of `src/server.js`). -/
structure ItemsItem where
  id : Nat
  name : Option String
  price : ℚ
  weight : String
  expiry : Option String
  remaining : ℚ
  averageDays : ℚ
  shelfLife : ℚ
deriving DecidableEq

/-- The per-row map of `/api/items` (lines 75-84 of `src/server.js`). -/
def itemsNormalize (r : RawRow) : ItemsItem :=
  { id := r.rowIndex
    name := r.name
    price := jsOr r.price 0
    weight := jsOrStr r.weight "未標示"
    expiry := r.expiry
    remaining := jsOr r.remaining 0
    averageDays := jsOr r.averageDays 3
    shelfLife := jsOr r.shelfLife 7 }

/-- `rows.map(...)` of `/api/items`. -/
def itemsOf (rows : List RawRow) : List ItemsItem := rows.map itemsNormalize

/-- The item shape `/api/ask-ai` builds (lines 143-150 of `src/server.js`). -/
structure AskItem where
  name : Option String
  price : ℚ
  weight : String
  expiry : String
  remaining : ℚ
  shelfLife : ℚ
deriving DecidableEq

/-- The per-row map of `/api/ask-ai` (lines 143-150): note `shelfLife` is the
stored value with default 7, with no recomputation from `expiry`. -/
def askAiNormalize (r : RawRow) : AskItem :=
  { name := r.name
    price := jsOr r.price 0
    weight := jsOrStr r.weight ""
    expiry := jsOrStr r.expiry ""
    remaining := jsOr r.remaining 0
    shelfLife := jsOr r.shelfLife 7 }

/-- The item shape `/api/smart-suggest` builds (lines 207-223 of
`src/server.js`). -/
structure SmartItem where
  name : Option String
  price : ℚ
  remaining : ℚ
  shelfLife : ℚ
  averageDays : ℚ
deriving DecidableEq

/-- The per-row map of `/api/smart-suggest` (lines 207-223): when `expiry` is
a truthy (present, non-empty) string, `shelfLife` is recomputed as
`Math.max(1, Math.round((new Date(expiry) - new Date()) / 86400000))`.
`pd` abstracts `s ↦ new Date(s).getTime()` (milliseconds) and `now` the
request's `new Date().getTime()`; a present-but-unparseable date (JS `NaN`)
is outside this model. -/
def smartNormalize (pd : String → ℤ) (now : ℤ) (r : RawRow) : SmartItem :=
  let base : ℚ := jsOr r.shelfLife 7
  let shelfLife : ℚ :=
    match r.expiry with
    | some s =>
      if s ≠ "" then
        ((max 1 (jsRound (((pd s - now : ℤ) : ℚ) / (1000 * 60 * 60 * 24))) : ℤ) : ℚ)
      else base
    | none => base
  { name := r.name
    price := jsOr r.price 0
    remaining := jsOr r.remaining 0
    shelfLife := shelfLife
    averageDays := jsOr r.averageDays 3 }

/-- `inventory.filter((i) => i.remaining < 40 || i.shelfLife < 5)` (line 226
of `src/server.js`). -/
def urgentOf (inv : List SmartItem) : List SmartItem :=
  inv.filter (fun i => decide (i.remaining < 40) || decide (i.shelfLife < 5))

/-- `Math.round(inventory.reduce((a, b) => a + b.averageDays, 0) /
(inventory.length || 1))` (lines 227-230 of `src/server.js`). -/
def avgDaysOf (inv : List SmartItem) : ℤ :=
  jsRound ((inv.map (fun i => i.averageDays)).sum /
    (if inv.length = 0 then (1 : ℚ) else (inv.length : ℚ)))

/-- `inventory.reduce((sum, i) => sum + i.price, 0)` (line 231 of
`src/server.js`). -/
def totalValueOf (inv : List SmartItem) : ℚ := (inv.map (fun i => i.price)).sum

/- ### The advisory response parser (lines 279-286 of `src/server.js`) -/

/-- Leftmost index at which `pat` occurs in `l` (`String.prototype.match`
with a non-anchored pattern finds the leftmost match). -/
def findPat (pat : List Char) : List Char → Option Nat
  | [] => if pat.isPrefixOf ([] : List Char) then some 0 else none
  | c :: rest =>
    if pat.isPrefixOf (c :: rest) then some 0
    else (findPat pat rest).map (fun n => n + 1)

/-- The parser's section-terminating lookahead `(?=📅|🧾|💡|$)` (line 280 of
`src/server.js`) stops at any of the three bare emoji characters. -/
def isStopChar (c : Char) : Bool := c == '📅' || c == '🧾' || c == '💡'

/-- The whitespace set of JS `String.prototype.trim` (WhiteSpace and
LineTerminator code points). -/
def isJsWs (c : Char) : Bool :=
  c == ' ' || c == '\t' || c == '\n' || c == '\r' || c == '\x0b' || c == '\x0c' ||
  c == ' ' || c == '﻿' || c == ' ' ||
  (decide (' ' ≤ c) && decide (c ≤ ' ')) ||
  c == ' ' || c == ' ' || c == ' ' || c == ' ' || c == '　'

/-- JS `String.prototype.trim`. -/
def jsTrim (l : List Char) : List Char :=
  ((l.dropWhile isJsWs).reverse.dropWhile isJsWs).reverse

/-- `extract` (lines 279-282 of `src/server.js`):
`answer.match(new RegExp(`📅 ${title}[\s\S]*?(?=📅|🧾|💡|$)`))`, then the
matched pattern head `📅 ${title}` is removed and the rest trimmed; `''` when
the pattern does not occur.  Note the hard-coded `📅 ` prefix in front of
every `title`, and the lazy scan whose first stop is a bare emoji or
end-of-text. -/
def extract (answer title : List Char) : List Char :=
  let pat := '📅' :: ' ' :: title
  match findPat pat answer with
  | none => []
  | some i => jsTrim ((answer.drop (i + pat.length)).takeWhile (fun c => !isStopChar c))

/-- The three section titles `extract` is called with (lines 284-286). -/
def titleWeek : List Char := "一週菜單建議".toList

/-- Title of the purchase-list section (line 285). -/
def titlePurchase : List Char := "建議採購清單".toList

/-- Title of the reminders section (line 286). -/
def titleReminders : List Char := "保存與料理提醒".toList

/-- The weekMenu marker the weekly-plan prompt emits (line 264). -/
def markerWeek : List Char := '📅' :: ' ' :: titleWeek

/-- The purchase-list marker the weekly-plan prompt emits (line 265). -/
def markerPurchase : List Char := '🧾' :: ' ' :: titlePurchase

/-- The reminders marker the weekly-plan prompt emits (line 266). -/
def markerReminders : List Char := '💡' :: ' ' :: titleReminders

/-- The fixed output-format block of the weekly-plan prompt (lines 263-266 of
`src/server.js`), the part of the prompt that fixes the three markers. -/
def promptOutputSpec : List Char :=
  ("請輸出以下三部分（保持標題一致）：\n" ++
   "📅 一週菜單建議（以 Markdown 表格呈現，7天×午餐/晚餐）\n" ++
   "🧾 建議採購清單（含數量與單位）\n" ++
   "💡 保存與料理提醒（3 行以內）\n").toList

/-- Modelled from the spec for comparison with `extract` (spec §4.4): cut the
text at the next occurrence of any of the three COMPLETE marker strings. -/
def specCut : List Char → List Char
  | [] => []
  | c :: rest =>
    if markerWeek.isPrefixOf (c :: rest) || markerPurchase.isPrefixOf (c :: rest) ||
       markerReminders.isPrefixOf (c :: rest) then []
    else c :: specCut rest

/-- Modelled from the spec for comparison with `extract` (spec §4.4): the
substring beginning immediately after `marker`, up to but not including the
next occurrence of any of the three full markers (or end of text), trimmed;
empty when `marker` does not occur. -/
def specExtract (answer marker : List Char) : List Char :=
  match findPat marker answer with
  | none => []
  | some i => jsTrim (specCut (answer.drop (i + marker.length)))

/- ### The weekly-plan orchestrator (lines 199-307 of `src/server.js`) -/

/-- The collaborators of one `/api/smart-suggest` request: the row-store read
(`loadSheet(); sheet.getRows()`), whether the generative client exists
(`!!genAI`), the outcome of `model.generateContent(prompt)`, plus the date
abstractions `smartNormalize` needs. -/
structure SmartEnv where
  loadResult : Except String (List RawRow)
  genConfigured : Bool
  genResult : Except String (List Char)
  parseDate : String → ℤ
  now : ℤ

/-- One `res.json({...})` payload of `/api/smart-suggest`.  The three section
fields are `Option`s because the no-model fallback (lines 235-241) and the
catch handler (lines 299-305) omit them from the object. -/
structure SmartResponse where
  answer : List Char
  weekMenu : Option (List Char)
  purchaseList : Option (List Char)
  reminders : Option (List Char)
  urgent : List SmartItem
  totalValue : ℚ
  avgDays : ℤ

/-- A finished request: the payload sent, and how many times
`model.generateContent` was called. -/
structure SmartOutcome where
  response : SmartResponse
  modelCalls : Nat

/-- Static apology of the catch handler (line 301). -/
def loadFailAnswer : List Char :=
  "智慧菜單規劃暫時出錯，但庫存資料仍可用，請稍後再試。".toList

/-- Static advisory text of the no-model fallback (line 237). -/
def noModelAnswerSmart : List Char :=
  "⚠️ 尚未連上 Gemini，請根據剩餘量與保鮮期自行安排料理優先順序。".toList

/-- Static fallback sentence substituted when generation throws (line 275). -/
def genFailAnswer : List Char :=
  "AI 顧問暫時離線，但你可以先將快過期食材優先使用。".toList

/-- The `/api/smart-suggest` handler (lines 199-307 of `src/server.js`).
A failed row-store read jumps to the catch handler before any metrics or
model work; otherwise metrics are computed, then the `!genAI` fallback
returns without section fields, and otherwise the model is called exactly
once, a generation error being replaced in-line by `genFailAnswer` before the
three `extract` calls.  `goal` and `capacity` only shape the prompt text, so
they do not influence the payload. -/
def smartSuggest (env : SmartEnv) (_goal _capacity : Option String) : SmartOutcome :=
  match env.loadResult with
  | .error _ =>
    ⟨{ answer := loadFailAnswer, weekMenu := none, purchaseList := none,
       reminders := none, urgent := [], totalValue := 0, avgDays := 0 }, 0⟩
  | .ok rows =>
    let inventory := rows.map (smartNormalize env.parseDate env.now)
    let urgent := urgentOf inventory
    let avgDays := avgDaysOf inventory
    let totalValue := totalValueOf inventory
    if env.genConfigured = false then
      ⟨{ answer := noModelAnswerSmart, weekMenu := none, purchaseList := none,
         reminders := none, urgent := urgent, totalValue := totalValue,
         avgDays := avgDays }, 0⟩
    else
      let answer : List Char :=
        match env.genResult with
        | .ok t => t
        | .error _ => genFailAnswer
      ⟨{ answer := answer
         weekMenu := some (extract answer titleWeek)
         purchaseList := some (extract answer titlePurchase)
         reminders := some (extract answer titleReminders)
         urgent := urgent, totalValue := totalValue, avgDays := avgDays }, 1⟩

/- ### Helper lemmas -/

/-- `findPat` returns the leftmost occurrence: at the returned index the
pattern is a prefix of the rest, and at no earlier index. -/
theorem findPat_leftmost (pat : List Char) :
    ∀ (l : List Char) (i : Nat), findPat pat l = some i →
      pat.isPrefixOf (l.drop i) = true ∧
      ∀ j, j < i → pat.isPrefixOf (l.drop j) = false := by
  intro l
  induction l with
  | nil =>
    intro i h
    simp only [findPat] at h
    by_cases hp : pat.isPrefixOf ([] : List Char) = true
    · rw [if_pos hp] at h
      simp only [Option.some.injEq] at h
      subst h
      exact ⟨hp, fun j hj => absurd hj (Nat.not_lt_zero j)⟩
    · rw [if_neg hp] at h
      exact Option.noConfusion h
  | cons c rest ih =>
    intro i h
    simp only [findPat] at h
    by_cases hp : pat.isPrefixOf (c :: rest) = true
    · rw [if_pos hp] at h
      simp only [Option.some.injEq] at h
      subst h
      exact ⟨hp, fun j hj => absurd hj (Nat.not_lt_zero j)⟩
    · rw [if_neg hp] at h
      rcases Option.map_eq_some'.mp h with ⟨n, hn, hi⟩
      subst hi
      refine ⟨?_, ?_⟩
      · rw [List.drop_succ_cons]
        exact (ih n hn).1
      · intro j hj
        cases j with
        | zero =>
          simp only [List.drop_zero]
          exact Bool.eq_false_iff.mpr hp
        | succ j =>
          rw [List.drop_succ_cons]
          exact (ih n hn).2 j (Nat.lt_of_succ_lt_succ hj)

/-- Every element of `takeWhile p l` satisfies `p`. -/
theorem mem_takeWhile_sat {p : Char → Bool} :
    ∀ (l : List Char) (c : Char), c ∈ l.takeWhile p → p c = true := by
  intro l
  induction l with
  | nil => intro c h; simp [List.takeWhile] at h
  | cons a rest ih =>
    intro c h
    rw [List.takeWhile_cons] at h
    by_cases ha : p a = true
    · rw [if_pos ha] at h
      rcases List.mem_cons.mp h with rfl | h2
      · exact ha
      · exact ih c h2
    · rw [if_neg ha] at h
      simp at h

/-- `takeWhile p l` is the maximal stop-free initial segment: either it is
all of `l`, or the next element fails `p`. -/
theorem takeWhile_maximal (p : Char → Bool) :
    ∀ l : List Char, (l.takeWhile p).length = l.length ∨
      ∃ c, (l.drop (l.takeWhile p).length).head? = some c ∧ p c = false := by
  intro l
  induction l with
  | nil => exact Or.inl rfl
  | cons a rest ih =>
    by_cases ha : p a = true
    · rw [List.takeWhile_cons, if_pos ha]
      simp only [List.length_cons, List.drop_succ_cons]
      rcases ih with h | h
      · exact Or.inl (by rw [h])
      · exact Or.inr h
    · rw [List.takeWhile_cons, if_neg ha]
      exact Or.inr ⟨a, by simp, by simpa using ha⟩

/-- `jsRound` at a value pinned between two bounds. -/
theorem jsRound_eq (q : ℚ) (n : ℤ) (h1 : (n : ℚ) ≤ q + 1/2)
    (h2 : q + 1/2 < (n : ℚ) + 1) : jsRound q = n := by
  unfold jsRound
  exact Int.floor_eq_iff.mpr ⟨h1, h2⟩

/- ### Concrete generated texts used as inputs -/

/-- A model output that follows the prompt's format exactly: all three fixed
markers present, in order, with non-overlapping content `A`, `B`, `C`. -/
def sampleAll : List Char :=
  "📅 一週菜單建議\nA\n🧾 建議採購清單\nB\n💡 保存與料理提醒\nC".toList

/-- A model output in which a bare 💡 emoji occurs inside the weekMenu
section's content, before the next full marker. -/
def sampleBare : List Char :=
  "📅 一週菜單建議 X 💡 Y 🧾 建議採購清單 Z".toList

/-- C1: code-bug evidence, evaluated at a failing input.  `sampleAll`
contains all three markers exactly as the weekly-plan prompt fixes them
(`findPat` finds the purchase-list and reminders markers in it), yet the
code's `extract` returns the expected trimmed content only for `weekMenu` and
the empty string for `purchaseList` and `reminders`, because it hard-codes
the `📅 ` prefix in front of every section title; the extractor modelled
from the spec's words returns the inter-marker content for all three
sections. -/
theorem C1_extract_wrong_prefix_eval :
    extract sampleAll titleWeek = "A".toList ∧
    extract sampleAll titlePurchase = [] ∧
    extract sampleAll titleReminders = [] ∧
    (findPat markerPurchase sampleAll).isSome = true ∧
    (findPat markerReminders sampleAll).isSome = true ∧
    specExtract sampleAll markerWeek = "A".toList ∧
    specExtract sampleAll markerPurchase = "B".toList ∧
    specExtract sampleAll markerReminders = "C".toList := by
  decide

/-- C2 (amended): one `extract` scan characterized.  The scan is independent
and non-anchored: it starts at the leftmost occurrence of the fixed string
`📅 ` followed by the section title (and at no earlier position), and the
returned section is the trimmed maximal segment after that string that
contains no bare 📅, 🧾 or 💡 at all — it ends at end-of-text or right
before a bare emoji, not at the next full marker string.  The three full
marker strings do occur in the prompt's fixed output-format block. -/
theorem C2_extract_boundary_characterization (answer title : List Char) (i : Nat)
    (h : findPat ('📅' :: ' ' :: title) answer = some i) :
    ('📅' :: ' ' :: title).isPrefixOf (answer.drop i) = true ∧
    (∀ j, j < i → ('📅' :: ' ' :: title).isPrefixOf (answer.drop j) = false) ∧
    extract answer title =
      jsTrim ((answer.drop (i + ('📅' :: ' ' :: title).length)).takeWhile
        (fun c => !isStopChar c)) ∧
    (∀ c, c ∈ (answer.drop (i + ('📅' :: ' ' :: title).length)).takeWhile
        (fun c => !isStopChar c) → isStopChar c = false) ∧
    (((answer.drop (i + ('📅' :: ' ' :: title).length)).takeWhile
        (fun c => !isStopChar c)).length =
          (answer.drop (i + ('📅' :: ' ' :: title).length)).length ∨
      ∃ c, ((answer.drop (i + ('📅' :: ' ' :: title).length)).drop
          (((answer.drop (i + ('📅' :: ' ' :: title).length)).takeWhile
            (fun c => !isStopChar c)).length)).head? = some c ∧
        isStopChar c = true) ∧
    (findPat markerWeek promptOutputSpec).isSome = true ∧
    (findPat markerPurchase promptOutputSpec).isSome = true ∧
    (findPat markerReminders promptOutputSpec).isSome = true := by
  obtain ⟨hpre, hleast⟩ := findPat_leftmost ('📅' :: ' ' :: title) answer i h
  refine ⟨hpre, hleast, ?_, ?_, ?_, by decide, by decide, by decide⟩
  · simp only [extract, h]
  · intro c hc
    have := mem_takeWhile_sat _ c hc
    simpa using this
  · rcases takeWhile_maximal (fun c => !isStopChar c)
        (answer.drop (i + ('📅' :: ' ' :: title).length)) with hall | ⟨c, hc, hcf⟩
    · exact Or.inl hall
    · exact Or.inr ⟨c, hc, by simpa using hcf⟩

/-- C2: counterexample to the claim as stated.  In `sampleBare` a bare 💡
emoji occurs inside the weekMenu content before the next full marker string
(`🧾 建議採購清單`); the claim says such a fragment never acts as a boundary,
so the section would be `X 💡 Y` (as the spec-modelled extractor returns),
but the code stops at the bare emoji and returns `X`. -/
theorem C2_bare_emoji_boundary_cex :
    extract sampleBare titleWeek = "X".toList ∧
    specExtract sampleBare markerWeek = "X 💡 Y".toList ∧
    extract sampleBare titleWeek ≠ specExtract sampleBare markerWeek := by
  decide

/-- C2: witness, the characterization applied to the concrete text
`sampleBare` where the marker is found at index 0. -/
theorem C2_extract_boundary_characterization_witness :
    extract sampleBare titleWeek =
      jsTrim ((sampleBare.drop (0 + ('📅' :: ' ' :: titleWeek).length)).takeWhile
        (fun c => !isStopChar c)) :=
  (C2_extract_boundary_characterization sampleBare titleWeek 0 (by decide)).2.2.1

/-- A request environment in which the row-store read fails. -/
def envLoadFail : SmartEnv :=
  { loadResult := .error "read failed", genConfigured := true,
    genResult := .ok [], parseDate := fun _ => 0, now := 0 }

/-- C3 (amended): when reading the inventory rows fails, the request reaches
a terminal state without invoking the model and without propagating the
exception (the embedding's total catch branch), answering with the static
apology and zeroed metrics (`urgent = []`, `totalValue = 0`, `avgDays = 0`);
but the catch payload OMITS the `weekMenu`, `purchaseList` and `reminders`
fields instead of carrying them as strings. -/
theorem C3_load_failure_response (env : SmartEnv) (g c : Option String)
    (e : String) (h : env.loadResult = .error e) :
    smartSuggest env g c =
      ⟨{ answer := loadFailAnswer, weekMenu := none, purchaseList := none,
         reminders := none, urgent := [], totalValue := 0, avgDays := 0 }, 0⟩ := by
  unfold smartSuggest
  rw [h]

/-- C3: counterexample to the claim as stated, at a concrete failing
environment: the three section fields are absent (`none`) from the catch
payload, so they are not "present as strings" as the claim requires (the
model is indeed not invoked). -/
theorem C3_sections_absent_cex :
    (smartSuggest envLoadFail none none).response.weekMenu = none ∧
    (smartSuggest envLoadFail none none).response.purchaseList = none ∧
    (smartSuggest envLoadFail none none).response.reminders = none ∧
    (smartSuggest envLoadFail none none).response.answer = loadFailAnswer ∧
    (smartSuggest envLoadFail none none).modelCalls = 0 :=
  ⟨rfl, rfl, rfl, rfl, rfl⟩

/-- C3: witness, the amended statement at the concrete failing
environment. -/
theorem C3_load_failure_response_witness :
    smartSuggest envLoadFail none none =
      ⟨{ answer := loadFailAnswer, weekMenu := none, purchaseList := none,
         reminders := none, urgent := [], totalValue := 0, avgDays := 0 }, 0⟩ :=
  C3_load_failure_response envLoadFail none none "read failed" rfl

/-- The static fallback sentence contains none of the three emojis, so each
`extract` call on it misses and returns the empty string. -/
theorem extract_genFail_week : extract genFailAnswer titleWeek = [] := by decide

/-- `extract` misses the purchase-list title in the fallback sentence. -/
theorem extract_genFail_purchase : extract genFailAnswer titlePurchase = [] := by
  decide

/-- `extract` misses the reminders title in the fallback sentence. -/
theorem extract_genFail_reminders : extract genFailAnswer titleReminders = [] := by
  decide

/-- C4: when the model is configured, the inventory loads, and generation
throws, the response carries the static fallback sentence as `answer`, empty
strings for all three sections, and the metrics computed from the loaded
inventory; the model is called exactly once (no retry). -/
theorem C4_generation_failure_response (env : SmartEnv) (g c : Option String)
    (rows : List RawRow) (e : String)
    (h1 : env.loadResult = .ok rows) (h2 : env.genConfigured = true)
    (h3 : env.genResult = .error e) :
    smartSuggest env g c =
      ⟨{ answer := genFailAnswer,
         weekMenu := some [], purchaseList := some [], reminders := some [],
         urgent := urgentOf (rows.map (smartNormalize env.parseDate env.now)),
         totalValue := totalValueOf (rows.map (smartNormalize env.parseDate env.now)),
         avgDays := avgDaysOf (rows.map (smartNormalize env.parseDate env.now)) },
       1⟩ := by
  unfold smartSuggest
  rw [h1, h2, h3]
  simp only [Bool.true_eq_false, if_false]
  rw [extract_genFail_week, extract_genFail_purchase, extract_genFail_reminders]

/-- A sample raw inventory row with no expiry date. -/
def rowMilk : RawRow :=
  { rowIndex := 1, name := some "Milk", price := some 30, weight := none,
    expiry := none, remaining := some 20, averageDays := some 2,
    shelfLife := some 4 }

/-- A request environment in which the inventory loads but generation
throws. -/
def envGenFail : SmartEnv :=
  { loadResult := .ok [rowMilk], genConfigured := true,
    genResult := .error "quota", parseDate := fun _ => 0, now := 0 }

/-- C4: witness at a concrete environment with one inventory row. -/
theorem C4_generation_failure_response_witness :
    smartSuggest envGenFail none none =
      ⟨{ answer := genFailAnswer,
         weekMenu := some [], purchaseList := some [], reminders := some [],
         urgent := urgentOf ([rowMilk].map
           (smartNormalize envGenFail.parseDate envGenFail.now)),
         totalValue := totalValueOf ([rowMilk].map
           (smartNormalize envGenFail.parseDate envGenFail.now)),
         avgDays := avgDaysOf ([rowMilk].map
           (smartNormalize envGenFail.parseDate envGenFail.now)) }, 1⟩ :=
  C4_generation_failure_response envGenFail none none [rowMilk] "quota" rfl rfl rfl

/-- C5: the urgent metric is the stable filter of the normalized inventory by
`remaining < 40 ∨ shelfLife < 5` with strict inequalities: membership is
exactly that predicate, the boundary item (`remaining = 40`, `shelfLife = 5`)
is not urgent, an item with `remaining = 39` is urgent, the result is a
sublist of the input (order preserved, no sort), and whenever the inventory
loads, the weekly-plan response's `urgent` field is this filter of the
freshness-overridden items. -/
theorem C5_urgent_stable_filter (inv : List SmartItem) (i : SmartItem)
    (h : i ∈ inv) :
    (i ∈ urgentOf inv ↔ (i.remaining < 40 ∨ i.shelfLife < 5)) ∧
    (i.remaining = 40 → i.shelfLife = 5 → i ∉ urgentOf inv) ∧
    (i.remaining = 39 → i ∈ urgentOf inv) ∧
    (urgentOf inv).Sublist inv ∧
    (∀ env g c rows, env.loadResult = Except.ok rows →
      (smartSuggest env g c).response.urgent =
        urgentOf (rows.map (smartNormalize env.parseDate env.now))) := by
  have hiff : i ∈ urgentOf inv ↔ (i.remaining < 40 ∨ i.shelfLife < 5) := by
    rw [urgentOf, List.mem_filter]
    simp [h]
  refine ⟨hiff, ?_, ?_, List.filter_sublist inv, ?_⟩
  · intro h40 h5 hmem
    rcases hiff.mp hmem with hlt | hlt
    · rw [h40] at hlt
      exact absurd hlt (by norm_num)
    · rw [h5] at hlt
      exact absurd hlt (by norm_num)
  · intro h39
    refine hiff.mpr (Or.inl ?_)
    rw [h39]
    norm_num
  · intro env g c rows hrows
    unfold smartSuggest
    rw [hrows]
    cases hb : env.genConfigured with
    | false => simp
    | true =>
      cases hg : env.genResult with
      | ok t => simp
      | error e => simp

/-- The urgency-boundary item: `remaining = 40` and `shelfLife = 5`. -/
def itemBoundary : SmartItem :=
  { name := some "Tofu", price := 10, remaining := 40, shelfLife := 5,
    averageDays := 3 }

/-- An urgent item: `remaining = 39`. -/
def itemLow : SmartItem :=
  { name := some "Milk", price := 30, remaining := 39, shelfLife := 9,
    averageDays := 3 }

/-- C5: witness, the `remaining = 39` case at a concrete two-item list. -/
theorem C5_urgent_stable_filter_witness :
    itemLow ∈ urgentOf [itemBoundary, itemLow] :=
  (C5_urgent_stable_filter [itemBoundary, itemLow] itemLow
    (List.mem_cons_of_mem _ (List.mem_cons_self _ _))).2.2.1 rfl

/-- C6: the freshness override.  For a row whose `expiry` is present (truthy),
the weekly-plan normalizer recomputes `shelfLife` as
`max(1, round((expiry − now) in days))` regardless of the stored value; the
result is at least 1 (never zero or negative); an expiry exactly 10 days
(864000000 ms) from now gives 10, and one 0.4 days (34560000 ms) from now
gives 1. -/
theorem C6_freshness_override (pd : String → ℤ) (now : ℤ) (r : RawRow)
    (s : String) (hs : r.expiry = some s) (hne : s ≠ "") :
    (smartNormalize pd now r).shelfLife =
      ((max 1 (jsRound (((pd s - now : ℤ) : ℚ) / (1000 * 60 * 60 * 24))) : ℤ) : ℚ) ∧
    (1 : ℚ) ≤ (smartNormalize pd now r).shelfLife ∧
    (pd s - now = 864000000 → (smartNormalize pd now r).shelfLife = 10) ∧
    (pd s - now = 34560000 → (smartNormalize pd now r).shelfLife = 1) := by
  have hmain : (smartNormalize pd now r).shelfLife =
      ((max 1 (jsRound (((pd s - now : ℤ) : ℚ) / (1000 * 60 * 60 * 24))) : ℤ) : ℚ) := by
    simp [smartNormalize, hs, hne]
  refine ⟨hmain, ?_, ?_, ?_⟩
  · rw [hmain]
    exact_mod_cast le_max_left 1 _
  · intro h10
    rw [hmain, h10]
    have hd : (((864000000 : ℤ) : ℚ)) / (1000 * 60 * 60 * 24) = 10 := by norm_num
    rw [hd, jsRound_eq 10 10 (by norm_num) (by norm_num)]
    have hm : max (1 : ℤ) 10 = 10 := by decide
    rw [hm]
    norm_num
  · intro h04
    rw [hmain, h04]
    have hd : (((34560000 : ℤ) : ℚ)) / (1000 * 60 * 60 * 24) = 2 / 5 := by norm_num
    rw [hd, jsRound_eq (2 / 5) 0 (by norm_num) (by norm_num)]
    have hm : max (1 : ℤ) 0 = 1 := by decide
    rw [hm]
    norm_num

/-- A raw row with a stored `shelfLife` of 3 and a present expiry date. -/
def rowExpiry : RawRow :=
  { rowIndex := 2, name := some "Fish", price := some 80, weight := none,
    expiry := some "2025-01-11", remaining := some 70, averageDays := some 2,
    shelfLife := some 3 }

/-- C6: witness — with `now = 0` and the date parsing to 864000000 ms
(10 days), the stored `shelfLife` 3 is overridden to 10. -/
theorem C6_freshness_override_witness :
    (smartNormalize (fun _ => 864000000) 0 rowExpiry).shelfLife = 10 :=
  (C6_freshness_override (fun _ => 864000000) 0 rowExpiry "2025-01-11" rfl
    (by decide)).2.2.1 rfl

/-- C7: `avgDays` is 0 on the empty inventory (the divisor is replaced by 1,
so no division error), and on a non-empty inventory it is the rounded true
mean of `averageDays`. -/
theorem C7_avg_days (inv : List SmartItem) (h : inv ≠ []) :
    avgDaysOf ([] : List SmartItem) = 0 ∧
    avgDaysOf inv =
      jsRound ((inv.map (fun i => i.averageDays)).sum / (inv.length : ℚ)) := by
  constructor
  · have h0 : avgDaysOf ([] : List SmartItem) = jsRound 0 := by
      unfold avgDaysOf
      norm_num
    rw [h0, jsRound_eq 0 0 (by norm_num) (by norm_num)]
  · unfold avgDaysOf
    rw [if_neg (fun hl => h (List.length_eq_zero.mp hl))]

/-- A sample normalized item for the non-empty mean. -/
def itemAvg : SmartItem :=
  { name := some "Egg", price := 5, remaining := 80, shelfLife := 12,
    averageDays := 4 }

/-- C7: witness at the empty list and a concrete one-item list. -/
theorem C7_avg_days_witness :
    avgDaysOf ([] : List SmartItem) = 0 ∧
    avgDaysOf [itemAvg] =
      jsRound (([itemAvg].map (fun i => i.averageDays)).sum /
        (([itemAvg] : List SmartItem).length : ℚ)) :=
  C7_avg_days [itemAvg] (List.cons_ne_nil _ _)

/-- C8: normalizer totality and defaults.  Normalization is a per-row map
(one output item per row, in input order, no row dropped), and a row with
every numeric field missing or non-numeric gets the stated defaults —
`price = 0`, `remaining = 0`, `averageDays = 3`, `shelfLife = 7` — in the
`/api/items` normalizer and in the weekly-plan normalizer (the latter stated
for a row with no expiry, where the stored-`shelfLife` default applies). -/
theorem C8_normalizer_defaults (rows : List RawRow) (k : Nat) (r : RawRow)
    (hp : r.price = none) (hr : r.remaining = none)
    (ha : r.averageDays = none) (hs : r.shelfLife = none)
    (he : r.expiry = none) :
    (itemsOf rows).length = rows.length ∧
    (itemsOf rows)[k]? = rows[k]?.map itemsNormalize ∧
    (∀ pd now, (rows.map (smartNormalize pd now))[k]? =
      rows[k]?.map (smartNormalize pd now)) ∧
    (itemsNormalize r).price = 0 ∧
    (itemsNormalize r).remaining = 0 ∧
    (itemsNormalize r).averageDays = 3 ∧
    (itemsNormalize r).shelfLife = 7 ∧
    (∀ pd now, (smartNormalize pd now r).price = 0 ∧
      (smartNormalize pd now r).remaining = 0 ∧
      (smartNormalize pd now r).averageDays = 3 ∧
      (smartNormalize pd now r).shelfLife = 7) := by
  refine ⟨by simp [itemsOf], ?_, fun pd now => ?_, ?_, ?_, ?_, ?_, fun pd now => ?_⟩
  · rw [itemsOf, List.getElem?_map]
  · rw [List.getElem?_map]
  · simp [itemsNormalize, hp, jsOr]
  · simp [itemsNormalize, hr, jsOr]
  · simp [itemsNormalize, ha, jsOr]
  · simp [itemsNormalize, hs, jsOr]
  · refine ⟨?_, ?_, ?_, ?_⟩ <;> simp [smartNormalize, hp, hr, ha, hs, he, jsOr]

/-- A raw row with every numeric field missing. -/
def rowSparse : RawRow :=
  { rowIndex := 3, name := some "Tomato", price := none, weight := none,
    expiry := none, remaining := none, averageDays := none, shelfLife := none }

/-- C8: witness — the defaults at a concrete all-missing row. -/
theorem C8_normalizer_defaults_witness :
    (itemsNormalize rowSparse).price = 0 :=
  (C8_normalizer_defaults [rowSparse] 0 rowSparse rfl rfl rfl rfl rfl).2.2.2.1

/-- C9: the fallback operator treats a parsed 0 as absent.  A stored
`shelfLife` of 0 normalizes exactly like a missing one (to the default 7), a
stored `averageDays` of 0 becomes 3, and a stored `price` or `remaining` of 0
stays 0 only because the default is also 0 — `jsOr (some 0) d = jsOr none d`
for every default `d`.  The same indistinguishability holds in the
weekly-plan normalizer. -/
theorem C9_zero_is_absent (r : RawRow) :
    itemsNormalize { r with shelfLife := some 0 } =
      itemsNormalize { r with shelfLife := none } ∧
    (itemsNormalize { r with shelfLife := some 0 }).shelfLife = 7 ∧
    (itemsNormalize { r with averageDays := some 0 }).averageDays = 3 ∧
    (itemsNormalize { r with price := some 0 }).price = 0 ∧
    (itemsNormalize { r with remaining := some 0 }).remaining = 0 ∧
    (∀ d : ℚ, jsOr (some 0) d = jsOr none d) ∧
    (∀ pd now, smartNormalize pd now { r with shelfLife := some 0 } =
      smartNormalize pd now { r with shelfLife := none }) := by
  refine ⟨?_, ?_, ?_, ?_, ?_, fun d => ?_, fun pd now => ?_⟩
  · simp [itemsNormalize, jsOr]
  · simp [itemsNormalize, jsOr]
  · simp [itemsNormalize, jsOr]
  · simp [itemsNormalize, jsOr]
  · simp [itemsNormalize, jsOr]
  · simp [jsOr]
  · cases hre : r.expiry with
    | none => simp [smartNormalize, hre, jsOr]
    | some s =>
      by_cases hse : s = ""
      · simp [smartNormalize, hre, hse, jsOr]
      · simp [smartNormalize, hre, hse, jsOr]

/-- C10: only the weekly-plan operation applies the freshness override.  The
`/api/ask-ai` normalizer's `shelfLife` does not depend on `expiry` at all
(and both its model prompt and its no-model fallback are built from these
normalized items only), a missing stored `shelfLife` defaults to 7 there, and
there is a row with a present expiry that the two operations report with
different `shelfLife` values at the same `now`. -/
theorem C10_askAi_uses_stored_shelfLife :
    (∀ (r : RawRow) (e1 e2 : Option String),
      (askAiNormalize { r with expiry := e1 }).shelfLife =
        (askAiNormalize { r with expiry := e2 }).shelfLife) ∧
    (∀ r : RawRow, r.shelfLife = none → (askAiNormalize r).shelfLife = 7) ∧
    (∃ (r : RawRow) (pd : String → ℤ) (now : ℤ) (s : String),
      r.expiry = some s ∧ s ≠ "" ∧
      (askAiNormalize r).shelfLife ≠ (smartNormalize pd now r).shelfLife) := by
  refine ⟨fun r e1 e2 => by simp [askAiNormalize],
    fun r h => by simp [askAiNormalize, h, jsOr],
    ⟨rowExpiry, fun _ => 864000000, 0, "2025-01-11", rfl, by decide, ?_⟩⟩
  have ha : (askAiNormalize rowExpiry).shelfLife = 3 := by
    simp [askAiNormalize, rowExpiry, jsOr]
  have hsm : (smartNormalize (fun _ => 864000000) 0 rowExpiry).shelfLife = 10 := by
    have hne : ("2025-01-11" : String) ≠ "" := by decide
    simp only [smartNormalize, rowExpiry]
    rw [if_pos hne]
    have hd : ((((864000000 : ℤ) - 0 : ℤ)) : ℚ) / (1000 * 60 * 60 * 24) = 10 := by
      norm_num
    rw [hd, jsRound_eq 10 10 (by norm_num) (by norm_num)]
    have hm : max (1 : ℤ) 10 = 10 := by decide
    rw [hm]
    norm_num
  rw [ha, hsm]
  norm_num
